import Mathlib

/-!
Verification of the `experiment_results_manager` library (a lightweight
experiment-tracking utility: runs with params/metrics/dicts/artifacts,
persisted to a URI-addressed blob store, reloaded, and rendered to HTML).

Shallow embedding notes:
* The fsspec blob store is modelled as an association list from path strings
  to file contents; a write conses an entry to the front, so a read (which
  takes the first match) sees the most recent write (last-writer-wins).
* `posixpath.join` is modelled faithfully (two-argument fold), including its
  behaviour on absolute second components and empty/trailing-slash paths.
* JSON serialization of the pydantic `ExperimentRunMetadata` model is
  modelled as storing the structured document itself: pydantic's JSON
  round trip is taken to be faithful (ISO-8601 timestamps round trip to
  serialization precision, which is why `timestamp_utc` is an abstract
  instant, a `Nat`).
* `datetime.utcnow()` is passed in explicitly (`now : Nat`) where the code
  calls it; Python floats in `str|int|float` unions are carried opaquely by
  their bit pattern (no arithmetic is ever performed on them).
* String indexing/slicing/length in the source operate on characters, so
  they are modelled on `String.data : List Char`.
-/

/-- Characters of a Python string, as a list. -/
def strChars (s : String) : List Char := s.data

/-- Python `len(s)` (character count). -/
def strLen (s : String) : Nat := s.data.length

/-- Python slice `s[n:]` (by characters). -/
def strDrop (s : String) (n : Nat) : String := List.asString (s.data.drop n)

/-- Python slice `s[:-n]` (by characters). -/
def strDropRight (s : String) (n : Nat) : String := List.asString (s.data.take (s.data.length - n))

/-- Whether a string starts with the character `/` (Python `b.startswith("/")`). -/
def startsSlash (s : String) : Bool :=
  match s.data with
  | c :: _ => c == '/'
  | [] => false

/-- Whether a string ends with the character `/` (Python `a.endswith("/")`). -/
def endsSlash (s : String) : Bool :=
  match s.data.getLast? with
  | some c => c == '/'
  | none => false

/-- Two-argument `posixpath.join`: if `b` is absolute it replaces `a`; if `a`
is empty or ends in a slash, `b` is appended directly; otherwise a slash is
inserted.  Multi-argument joins in the source fold this left-to-right. -/
def pjoin (a b : String) : String :=
  if startsSlash b = true then b
  else if a = "" then a ++ b
  else if endsSlash a = true then a ++ b
  else a ++ "/" ++ b

/-- Python `os.path.basename`: the part of the path after the last `/`. -/
def basename (p : String) : String :=
  List.asString ((p.data.reverse.takeWhile (fun c => c != '/')).reverse)

/-- Number of `/` characters of a string (used to separate the distinct
levels of the registry layout). -/
def slashes (s : String) : Nat := s.data.count '/'

/-- Lexicographic comparison of character lists by code point, matching
Python string `<=`. -/
def lexLe : List Char → List Char → Bool
  | [], _ => true
  | _ :: _, [] => false
  | a :: as, b :: bs =>
    if a.toNat < b.toNat then true
    else if b.toNat < a.toNat then false
    else lexLe as bs

/-- Python string comparison `a <= b` (lexicographic on code points). -/
def strLe (a b : String) : Bool := lexLe a.data b.data

/-- Insert a string into a lexicographically ascending list, keeping it
ascending (stable: an equal element is inserted before existing ones only
when Python's sort would; for equal strings the results are identical). -/
def insortStr (x : String) : List String → List String
  | [] => [x]
  | y :: ys => if strLe x y then x :: y :: ys else y :: insortStr x ys

/-- Ascending lexicographic sort, modelling Python `list.sort()`. -/
def sortStrings (l : List String) : List String := l.foldr insortStr []

/-- Python `pre in`-prefix test by characters. -/
def strIsPrefix (pre s : String) : Bool := pre.data.isPrefixOf s.data

/-- Python suffix test by characters. -/
def strIsSuffix (suf s : String) : Bool := suf.data.isSuffixOf s.data

/-! ## Data model (artifact.py, experiment_run.py, serde.py) -/

/-- The artifact type enum (`artifact.py`). -/
inductive ArtifactType
  | png
  | jpg
  | plotly_json
  | html
  | binary
deriving DecidableEq, Repr

/-- Metadata-only projection of an artifact (`ArtifactBase` dataclass). -/
structure ArtifactBase where
  id : String
  filename : String
  artifact_type : ArtifactType
deriving DecidableEq, Repr

/-- A fully materialized artifact (`Artifact` dataclass: base plus bytes).
Bytes are modelled as lists of byte values. -/
structure Artifact where
  id : String
  filename : String
  artifact_type : ArtifactType
  bytes : List Nat
deriving DecidableEq, Repr

/-- The metadata-only projection used when persisting (`ArtifactBase(a.id,
a.filename, a.artifact_type)` in `save_run_to_path`). -/
def Artifact.toBase (a : Artifact) : ArtifactBase :=
  { id := a.id, filename := a.filename, artifact_type := a.artifact_type }

/-- A `str | int | float` value as stored in params/metrics/dicts.  Floats
are carried opaquely by their bit pattern: the library never computes with
them, and JSON round-trips them exactly. -/
inductive Value
  | s (v : String)
  | i (v : Int)
  | f (bits : Nat)
deriving DecidableEq, Repr

/-- A Python `dict` with string keys: an insertion-ordered association list
whose keys are unique when built through `pySet`/`pyUpdate`. -/
abbrev PyDict (α : Type) := List (String × α)

/-- Python `d[k]` lookup (as an option).  The first matching entry is the
binding, matching dict semantics when keys are unique. -/
def pyGet? {α : Type} (d : PyDict α) (k : String) : Option α :=
  (d.find? (fun e => e.1 == k)).map (fun e => e.2)

/-- Python `k in d`. -/
def pyMem {α : Type} (d : PyDict α) (k : String) : Bool := (pyGet? d k).isSome

/-- Python `d[k] = v`: updates the existing binding in place, else appends. -/
def pySet {α : Type} : PyDict α → String → α → PyDict α
  | [], k, v => [(k, v)]
  | (k', v') :: rest, k, v =>
    if k' = k then (k', v) :: rest else (k', v') :: pySet rest k v

/-- Python `d.update(m)`: upsert every binding of `m` into `d` in order. -/
def pyUpdate {α : Type} (d m : PyDict α) : PyDict α :=
  m.foldl (fun acc kv => pySet acc kv.1 kv.2) d

/-- Python `list(d.keys())`. -/
def pyKeys {α : Type} (d : PyDict α) : List String := d.map (fun e => e.1)

/-- The in-memory `ExperimentRun` aggregate (experiment_run.py).  The
`timestamp_utc` is an abstract instant.  (The constructor's defaulting of
`run_id` from the timestamp format `%Y_%m_%d__%H_%M_%S` is a caller-side
convenience not needed by the verified operations, which all receive the
identity explicitly.) -/
structure ExperimentRun where
  experiment_id : String
  variant_id : String
  run_id : String
  timestamp_utc : Nat
  params : PyDict Value
  metrics : PyDict Value
  dicts : PyDict (PyDict Value)
  artifacts : PyDict Artifact
deriving DecidableEq, Repr

/-- The pydantic `ExperimentRunMetadata` document (serde.py): same shape as
the run but with metadata-only artifacts. -/
structure ExperimentRunMetadata where
  timestamp_utc : Nat
  experiment_id : String
  variant_id : String
  run_id : String
  params : PyDict Value
  metrics : PyDict Value
  dicts : PyDict (PyDict Value)
  artifacts : PyDict ArtifactBase
deriving DecidableEq, Repr

/-- Python exceptions surfaced by the modelled operations. -/
inductive PyErr
  /-- `FileExistsError` from `save_run_to_path`. -/
  | fileExists
  /-- `FileNotFoundError` from reading a missing blob. -/
  | notFound
  /-- `ValueError` (missing filename for raw-bytes `log_artifact`). -/
  | valueError
  /-- `IndexError` (`runs[-1]` on an empty list). -/
  | indexError
  /-- `AttributeError` (accessing an attribute an object does not have). -/
  | attributeError
  /-- `UnboundLocalError` (reading a local variable never assigned). -/
  | unboundLocal
  /-- JSON/schema validation failure when parsing stored metadata. -/
  | malformed
deriving DecidableEq, Repr

/-- Contents of one stored blob.  Structured documents (the metadata file
and the three marker files) are stored as their parsed content: the JSON
encode/decode pair is modelled as the identity on the document. -/
inductive FileData
  | meta (m : ExperimentRunMetadata)
  | blob (b : List Nat)
  | markerRegistry (created : Nat)
  | markerExperiment (experiment_id : String) (created : Nat)
  | markerVariant (variant_id : String) (created : Nat)
deriving DecidableEq, Repr

/-- The blob store: newest writes first, so lookup of the first matching
path yields the last write to that path. -/
abbrev FS := List (String × FileData)

/-- Write a blob (fsspec `write_to_file`; parent directories are implicit). -/
def fsWrite (fs : FS) (p : String) (d : FileData) : FS := (p, d) :: fs

/-- Read the current contents at a path, if any. -/
def fsRead? (fs : FS) (p : String) : Option FileData :=
  (fs.find? (fun e => e.1 == p)).map (fun e => e.2)

/-- fsspec `fs.exists(path)`. -/
def fsExistsB (fs : FS) (p : String) : Bool := (fsRead? fs p).isSome

/-- How many times a path has ever been written (used to state the
write-once property of marker files). -/
def writeCount (fs : FS) (p : String) : Nat := fs.countP (fun e => e.1 == p)

/-- The distinct paths present in the store (what a glob can see). -/
def fsPaths (fs : FS) : List String := (fs.map (fun e => e.1)).dedup

/-! ## Logging operations (experiment_run.py) -/

/-- The source of an artifact: a path string or raw bytes
(`src_path_or_bytes : Union[str, bytes]`). -/
inductive ArtifactSrc
  | path (p : String)
  | bytes (b : List Nat)
deriving DecidableEq, Repr

/-- Read a raw blob for `open(path, "rb")` in `log_artifact`.  Only blob
contents are surfaced; the verified properties never read a structured
document through this interface. -/
def readBlob? (fs : FS) (p : String) : Option (List Nat) :=
  match fsRead? fs p with
  | some (.blob b) => some b
  | _ => none

/-- `ExperimentRun.log_param`: upsert one key into `params`. -/
def log_param (er : ExperimentRun) (key : String) (value : Value) : ExperimentRun :=
  { er with params := pySet er.params key value }

/-- `ExperimentRun.log_metric`: upsert one key into `metrics`. -/
def log_metric (er : ExperimentRun) (key : String) (value : Value) : ExperimentRun :=
  { er with metrics := pySet er.metrics key value }

/-- `ExperimentRun.log_params`: bulk upsert into `params`. -/
def log_params (er : ExperimentRun) (data : PyDict Value) : ExperimentRun :=
  { er with params := pyUpdate er.params data }

/-- `ExperimentRun.log_metrics`: bulk upsert into `metrics`. -/
def log_metrics (er : ExperimentRun) (data : PyDict Value) : ExperimentRun :=
  { er with metrics := pyUpdate er.metrics data }

/-- `ExperimentRun.log_dict`: create the named dict on first use, then
merge `data` into it in place. -/
def log_dict (er : ExperimentRun) (dict_name : String) (data : PyDict Value) :
    ExperimentRun :=
  let d0 := if pyMem er.dicts dict_name then er.dicts else pySet er.dicts dict_name []
  { er with dicts := pySet d0 dict_name (pyUpdate ((pyGet? d0 dict_name).getD []) data) }

/-- `ExperimentRun.log_artifact`: bytes require an explicit filename
(`ValueError` otherwise); a path source is read from the file system and
the filename is derived from the path's base name, ignoring the `filename`
argument. -/
def log_artifact (fs : FS) (er : ExperimentRun) (src : ArtifactSrc)
    (artifact_id : String) (filename : Option String) (artifact_type : ArtifactType) :
    Except PyErr ExperimentRun :=
  match src with
  | .bytes b =>
    match filename with
    | none => .error .valueError
    | some f =>
      let artifact : Artifact :=
        { id := artifact_id, filename := f, artifact_type := artifact_type, bytes := b }
      .ok { er with artifacts := pySet er.artifacts artifact_id artifact }
  | .path p =>
    match readBlob? fs p with
    | none => .error .notFound
    | some data =>
      let artifact : Artifact :=
        { id := artifact_id, filename := basename p, artifact_type := artifact_type,
          bytes := data }
      .ok { er with artifacts := pySet er.artifacts artifact_id artifact }

/-- `ExperimentRun.log_image`: delegates to `log_artifact` with type PNG,
defaulting the filename to the artifact id. -/
def log_image (fs : FS) (er : ExperimentRun) (src : ArtifactSrc)
    (artifact_id : String) (filename : Option String) : Except PyErr ExperimentRun :=
  log_artifact fs er src artifact_id (some (filename.getD artifact_id)) .png

/-- `ExperimentRun.log_text`: a string is UTF-8 encoded and stored as a
BINARY artifact named by the artifact id.  The byte branch is guarded by
`isinstance(bytes, str)` in the source, which is always `False` (the
builtin type `bytes` is not a `str`), so `data` is never assigned and the
final `self.log_artifact(data, ...)` raises `UnboundLocalError`. -/
def log_text (fs : FS) (er : ExperimentRun) (text : String ⊕ List Nat)
    (artifact_id : String) : Except PyErr ExperimentRun :=
  match text with
  | .inl s =>
    log_artifact fs er (.bytes (s.toUTF8.toList.map (fun b => b.toNat)))
      artifact_id (some artifact_id) .binary
  | .inr b =>
    if false then
      log_artifact fs er (.bytes b) artifact_id (some artifact_id) .binary
    else .error .unboundLocal

/-! ## Serializer / deserializer (serde.py) -/

/-- The metadata document built by `save_run_to_path` (artifact bytes
stripped to the `ArtifactBase` projection). -/
def metadataOfRun (er : ExperimentRun) : ExperimentRunMetadata :=
  { timestamp_utc := er.timestamp_utc
    experiment_id := er.experiment_id
    variant_id := er.variant_id
    run_id := er.run_id
    params := er.params
    metrics := er.metrics
    dicts := er.dicts
    artifacts := er.artifacts.map (fun ka => (ka.1, ka.2.toBase)) }

/-- `save_run_to_path`: refuse to overwrite an existing
`{path}/erm_metadata.json` unless asked (raising before any write);
otherwise write the metadata document and then every artifact's bytes to
`{path}/artifacts/{filename}`.  The store is returned together with the
raised exception, if any (the final `print` is ignored). -/
def save_run_to_path (fs : FS) (er : ExperimentRun) (path : String)
    (overwrite : Bool) : FS × Option PyErr :=
  let run_metadata_file_path := pjoin path "erm_metadata.json"
  if fsExistsB fs run_metadata_file_path && !overwrite then
    (fs, some .fileExists)
  else
    let fs1 := fsWrite fs run_metadata_file_path (.meta (metadataOfRun er))
    let artifacts_dir := pjoin path "artifacts"
    let fs2 := er.artifacts.foldl
      (fun acc ka => fsWrite acc (pjoin artifacts_dir ka.2.filename) (.blob ka.2.bytes))
      fs1
    (fs2, none)

/-- The marker-file idiom of `save_run_to_registry`: check existence, then
write only if absent. -/
def createIfAbsent (fs : FS) (p : String) (d : FileData) : FS :=
  if fsExistsB fs p then fs else fsWrite fs p d

/-- `save_run_to_registry`: idempotently create the three marker files
(registry, experiment, variant), each only if absent, then delegate to
`save_run_to_path` at `{root}/{experiment_id}/{variant_id}/{run_id}` (the
path the source returns).  `now` stands for `datetime.utcnow()`. -/
def save_run_to_registry (fs : FS) (er : ExperimentRun)
    (experiment_registry_path : String) (overwrite : Bool) (now : Nat) :
    FS × Option PyErr :=
  let registry_file_path := pjoin experiment_registry_path ".erm_registry.json"
  let fs := createIfAbsent fs registry_file_path (.markerRegistry now)
  let experiment_file_path :=
    pjoin (pjoin experiment_registry_path er.experiment_id) ".erm_experiment.json"
  let fs := createIfAbsent fs experiment_file_path (.markerExperiment er.experiment_id now)
  let variant_file_path :=
    pjoin (pjoin (pjoin experiment_registry_path er.experiment_id) er.variant_id)
      ".erm_variant.json"
  let fs := createIfAbsent fs variant_file_path (.markerVariant er.variant_id now)
  let run_path :=
    pjoin (pjoin (pjoin experiment_registry_path er.experiment_id) er.variant_id)
      er.run_id
  save_run_to_path fs er run_path overwrite

/-- The run path `save_run_to_registry` returns on success. -/
def registryRunPath (root experiment_id variant_id run_id : String) : String :=
  pjoin (pjoin (pjoin root experiment_id) variant_id) run_id

/-- The artifact-loading loop of `load_run_from_path`: read every artifact
referenced by the metadata from `{path}/artifacts/{filename}` and rebuild
the full artifact; a missing file raises `FileNotFoundError`. -/
def loadArtifacts (fs : FS) (artifacts_dir : String) :
    PyDict ArtifactBase → Except PyErr (PyDict Artifact)
  | [] => .ok []
  | (k, ab) :: rest =>
    match fsRead? fs (pjoin artifacts_dir ab.filename) with
    | some (.blob b) =>
      (loadArtifacts fs artifacts_dir rest).map
        (fun r => (k, { id := ab.id, filename := ab.filename,
                        artifact_type := ab.artifact_type, bytes := b }) :: r)
    | some _ => .error .notFound
    | none => .error .notFound

/-- `load_run_from_path`: parse `{path}/erm_metadata.json` (a missing file
raises `FileNotFoundError`; non-metadata content fails validation), load
the artifacts, and rebuild the run in place (a raw state restore). -/
def load_run_from_path (fs : FS) (run_path : String) : Except PyErr ExperimentRun :=
  match fsRead? fs (pjoin run_path "erm_metadata.json") with
  | some (.meta md) =>
    (loadArtifacts fs (pjoin run_path "artifacts") md.artifacts).map
      (fun arts =>
        { experiment_id := md.experiment_id
          variant_id := md.variant_id
          run_id := md.run_id
          timestamp_utc := md.timestamp_utc
          params := md.params
          metrics := md.metrics
          dicts := md.dicts
          artifacts := arts })
  | some _ => .error .malformed
  | none => .error .notFound

/-! ## Registry discovery (registry.py) -/

/-- `list_runs`: glob `{root}/{experiment_id}/{variant_id}/**/erm_metadata.json`
over the store (fsspec translates `**` to a `.*` regex fragment, so a match
is exactly `dir ++ "/" ++ mid ++ "/" ++ "erm_metadata.json"` for some
`mid`), then slice off the prefix `dir ++ "/"` and the suffix
`"/erm_metadata.json"` to recover the run-id segment.  URIs are modelled
scheme-less, so `remove_scheme_if_exists` is the identity. -/
def list_runs (fs : FS) (registry_uri experiment_id variant_id : String) :
    List String :=
  let dir := pjoin (pjoin registry_uri experiment_id) variant_id
  let fname := "erm_metadata.json"
  (fsPaths fs).filterMap (fun p =>
    if strIsPrefix (dir ++ "/") p && strIsSuffix ("/" ++ fname) p
        && strLen dir + 1 + (1 + strLen fname) ≤ strLen p then
      some (strDropRight (strDrop p (strLen dir + 1)) (strLen fname + 1))
    else none)

/-- `get_latest_run_for_variant`: sort the listed run ids ascending and
take the last (`runs[-1]`), which raises `IndexError` on an empty list. -/
def get_latest_run_for_variant (fs : FS)
    (registry_uri experiment_id variant_id : String) : Except PyErr String :=
  let runs := sortStrings (list_runs fs registry_uri experiment_id variant_id)
  match runs.getLast? with
  | some r => .ok r
  | none => .error .indexError

/-- `load_run_from_registry`: resolve an omitted run id through
`get_latest_run_for_variant`, then delegate to `load_run_from_path` at the
joined run path. -/
def load_run_from_registry (fs : FS) (experiment_registry_path experiment_id : String)
    (variant_id : String) (run_id : Option String) : Except PyErr ExperimentRun :=
  match run_id with
  | some rid =>
    load_run_from_path fs
      (registryRunPath experiment_registry_path experiment_id variant_id rid)
  | none =>
    match get_latest_run_for_variant fs experiment_registry_path experiment_id
        variant_id with
    | .ok rid =>
      load_run_from_path fs
        (registryRunPath experiment_registry_path experiment_id variant_id rid)
    | .error e => .error e

/-! ## HTML comparison renderer (html_util.py, compare_runs.py)

External capabilities (plotly figure rendering, the plotly JS source,
base64 encoding, float/`datetime` text formatting) are supplied as
parameters, mirroring the spec's treatment of them as external
collaborators.  CSS/JS braces and quotes are escaped in string literals. -/

/-- External rendering capabilities used by the artifacts section. -/
structure RenderExt where
  /-- `plotly.io.from_json(bytes).to_html(full_html=False, include_plotlyjs=False)`. -/
  plotlyFigHtml : List Nat → String
  /-- `plotly.offline.get_plotlyjs()`. -/
  plotlyJs : String
  /-- `base64.b64encode(bytes).decode("utf-8")`. -/
  b64 : List Nat → String
  /-- Python `f"{value}"` for a float carried by its bit pattern. -/
  floatStr : Nat → String
  /-- Python `f"{timestamp}"` for a `datetime` instant. -/
  timestampStr : Nat → String
  /-- `human_readable_bytes(n)` (html_util.py): repeated division by 1024.0
  with one-decimal float formatting; float formatting keeps it external. -/
  humanBytes : Nat → String

/-- Python `f"{value}"` for a `str | int | float` cell value. -/
def valueStr (ext : RenderExt) : Value → String
  | .s v => v
  | .i v => toString v
  | .f bits => ext.floatStr bits

/-- `dicts_to_html_table` (html_util.py): union of keys across the dicts,
sorted ascending; empty key set renders nothing; cells default to "". -/
def dicts_to_html_table (ext : RenderExt) (dict_name : String)
    (data : List (PyDict Value)) : String :=
  let keys_list := sortStrings ((data.foldl (fun acc d => acc ++ pyKeys d) []).dedup)
  if keys_list.length = 0 then ""
  else
    let header := (List.range data.length).foldl
      (fun acc i => acc ++ "<th>Run " ++ toString (i + 1) ++ "</th>") ""
    let rows := keys_list.foldl
      (fun acc key =>
        let cells := data.foldl
          (fun acc2 d =>
            acc2 ++ "<td>" ++ ((pyGet? d key).map (valueStr ext)).getD "" ++ "</td>")
          ""
        acc ++ "<tr><td>" ++ key ++ "</td>" ++ cells ++ "</tr>")
      ""
    "<h3>" ++ dict_name ++ "</h3>" ++ "<table><tr><th></th>" ++ header ++ "</tr>"
      ++ rows ++ "</table>"

/-- `timestamps_to_html_table` (html_util.py): one row per run with its
identity and timestamp (the call site passes equally long lists). -/
def timestamps_to_html_table (ext : RenderExt) (experiment_ids variant_ids
    run_ids : List String) (timestamps : List Nat) : String :=
  let rows := experiment_ids.enum.foldl
    (fun acc p =>
      acc ++ "<tr><td>Run " ++ toString (p.1 + 1) ++ "</td><td>" ++ p.2
        ++ "</td><td>" ++ (variant_ids.getD p.1 "") ++ "</td><td>"
        ++ (run_ids.getD p.1 "") ++ "</td><td>"
        ++ ext.timestampStr (timestamps.getD p.1 0) ++ "</td></tr>")
    ""
  "<table><tr><th></th><th>Experiment id</th><th>Variant id</th>"
    ++ "<th>Run id</th><th>Timestamp (UTC)</th></tr>" ++ rows ++ "</table>"

/-- `render_artifact` (compare_runs.py): one artifact cell for one run,
dispatching on the artifact type; returns the HTML fragment and whether a
plotly figure was rendered.  The artifact lookup is guarded by the caller
(`if k in run.artifacts`). -/
def render_artifact (ext : RenderExt) (k : String) (i : Nat)
    (run : ExperimentRun) : String × Bool :=
  let head := "<h4>Run " ++ toString (i + 1) ++ "</h4>"
  match pyGet? run.artifacts k with
  | none => (head, false)
  | some artifact =>
    match artifact.artifact_type with
    | .plotly_json => (head ++ ext.plotlyFigHtml artifact.bytes, true)
    | .png =>
      (head ++ "<img src=\"data:image/png;base64," ++ ext.b64 artifact.bytes
        ++ "\">", false)
    | .jpg =>
      (head ++ "<img src=\"data:image/jpg;base64," ++ ext.b64 artifact.bytes
        ++ "\">", false)
    | .binary =>
      (head ++ "<pre><code>Filename: " ++ artifact.filename ++ "\nSize: "
        ++ ext.humanBytes artifact.bytes.length ++ "</pre></code>", false)
    | .html => (head, false)

/-- `_feature_list_to_dict` (compare_runs.py): enumerates `er.features`.
`ExperimentRun` defines no `features` attribute anywhere, so evaluating
`er.features` raises `AttributeError` for every run. -/
def feature_list_to_dict (_er : ExperimentRun) : Except PyErr (PyDict Value) :=
  .error .attributeError

/-- The list comprehension `[_feature_list_to_dict(er) for er in runs]`:
the first raised exception propagates. -/
def featureDicts : List ExperimentRun → Except PyErr (List (PyDict Value))
  | [] => .ok []
  | er :: rest =>
    match feature_list_to_dict er with
    | .error e => .error e
    | .ok d => (featureDicts rest).map (fun r => d :: r)

/-- The `<style>` block injected by `compare_runs` when requested. -/
def compareRunsCss : String :=
  "<style>table\x7btext-align:center\x7dth\x7bbackground-color:#ddd;color:#000\x7d"
    ++ "tr:nth-child(odd)\x7bbackground-color:#e7e6e6;color:#000\x7dtr:nth-child(2n)"
    ++ "\x7bbackground-color:#fff;color:#000\x7dtr:hover\x7bbackground-color:#d1eaff\x7dtbo"
    ++ "dy\x7bfont-family:monospace;font-weight:400\x7d</style>"

/-- The plotly bootstrap prepended once when any plotly figure rendered. -/
def plotlyHeader (ext : RenderExt) : String :=
  "            <script type=\"text/javascript\">"
    ++ "            window.PlotlyConfig = \x7bMathJaxConfig: \x27local\x27\x7d;"
    ++ "            </script>\n            <script type=\"text/javascript\">"
    ++ ext.plotlyJs ++ "</script>            "

/-- `compare_runs` (compare_runs.py): optional CSS, identity table, Params
table, Features table (which evaluates `er.features` for every run and
therefore raises for any nonempty input), Metrics table, one table per
named dict (keys sorted), then the artifacts section; the plotly JS source
is prepended once if any plotly figure was rendered, and the whole result
is wrapped in `<html><body>`. -/
def compare_runs (ext : RenderExt) (runs : List ExperimentRun)
    (inject_css : Bool) : Except PyErr String :=
  let html0 := if inject_css then compareRunsCss else ""
  let html1 := html0 ++ timestamps_to_html_table ext
    (runs.map (fun er => er.experiment_id)) (runs.map (fun er => er.variant_id))
    (runs.map (fun er => er.run_id)) (runs.map (fun er => er.timestamp_utc))
  let html2 := html1 ++ dicts_to_html_table ext "Params"
    (runs.map (fun er => er.params))
  match featureDicts runs with
  | .error e => .error e
  | .ok feature_dicts =>
    let html3 := html2 ++ dicts_to_html_table ext "Features" feature_dicts
    let html4 := html3 ++ dicts_to_html_table ext "Metrics"
      (runs.map (fun er => er.metrics))
    let dict_keys := sortStrings
      ((runs.foldl (fun acc er => acc ++ pyKeys er.dicts) []).dedup)
    let html5 := dict_keys.foldl
      (fun acc dict_key =>
        acc ++ dicts_to_html_table ext dict_key
          (runs.map (fun er => (pyGet? er.dicts dict_key).getD [])))
      html4
    let html6 := html5 ++ "<h3>Artifacts</h3>"
    let artifact_keys := sortStrings
      ((runs.foldl (fun acc er => acc ++ pyKeys er.artifacts) []).dedup)
    let step := artifact_keys.foldl
      (fun (acc : String × Bool) k =>
        runs.enum.foldl
          (fun (acc2 : String × Bool) p =>
            if pyMem p.2.artifacts k then
              let r := render_artifact ext k p.1 p.2
              (acc2.1 ++ r.1, acc2.2 || r.2)
            else acc2)
          (acc.1 ++ "<h3>" ++ k ++ "</h3>", acc.2))
      (html6, false)
    let final := if step.2 then plotlyHeader ext ++ step.1 else step.1
    .ok ("<html><body>" ++ final ++ "</body></html>")

/-! ## Dictionary lemmas -/

theorem pyGet?_cons {α : Type} (e : String × α) (rest : PyDict α) (k : String) :
    pyGet? (e :: rest) k = if e.1 = k then some e.2 else pyGet? rest k := by
  by_cases h : e.1 = k
  · rw [if_pos h]
    unfold pyGet?
    rw [List.find?_cons_of_pos _ (by simp [h])]
    rfl
  · rw [if_neg h]
    unfold pyGet?
    rw [List.find?_cons_of_neg _ (by simp [h])]

theorem pyGet?_pySet_self {α : Type} (d : PyDict α) (k : String) (v : α) :
    pyGet? (pySet d k v) k = some v := by
  induction d with
  | nil => simp [pySet, pyGet?_cons]
  | cons e rest ih =>
    obtain ⟨k₁, v₁⟩ := e
    by_cases h : k₁ = k
    · simp only [pySet, if_pos h, pyGet?_cons, h, if_true]
    · simp only [pySet, if_neg h, pyGet?_cons, ih, if_neg h]

theorem pyGet?_pySet_ne {α : Type} (d : PyDict α) (k k' : String) (v : α)
    (h : k' ≠ k) : pyGet? (pySet d k v) k' = pyGet? d k' := by
  induction d with
  | nil => simp [pySet, pyGet?_cons, pyGet?, (Ne.symm h)]
  | cons e rest ih =>
    obtain ⟨k₁, v₁⟩ := e
    by_cases h1 : k₁ = k
    · have h2 : k₁ ≠ k' := by
        rw [h1]
        exact Ne.symm h
      simp only [pySet, if_pos h1, pyGet?_cons, if_neg h2]
    · simp only [pySet, if_neg h1, pyGet?_cons, ih]

theorem pyGet?_eq_none_of_not_mem {α : Type} (d : PyDict α) (k : String)
    (h : k ∉ pyKeys d) : pyGet? d k = none := by
  induction d with
  | nil => simp [pyGet?]
  | cons e rest ih =>
    simp only [pyKeys, List.map_cons, List.mem_cons, not_or] at h
    rw [pyGet?_cons, if_neg (fun hc => h.1 hc.symm)]
    exact ih (by simpa [pyKeys] using h.2)

theorem pyGet?_pyUpdate {α : Type} (d m : PyDict α) (hm : (pyKeys m).Nodup)
    (k : String) : pyGet? (pyUpdate d m) k = (pyGet? m k).or (pyGet? d k) := by
  induction m generalizing d with
  | nil => simp [pyUpdate, pyGet?]
  | cons e rest ih =>
    obtain ⟨k₁, v₁⟩ := e
    simp only [pyKeys, List.map_cons, List.nodup_cons] at hm
    have hstep : pyUpdate d ((k₁, v₁) :: rest) = pyUpdate (pySet d k₁ v₁) rest := rfl
    rw [hstep, ih (pySet d k₁ v₁) hm.2]
    by_cases h : k = k₁
    · subst h
      have hrest : pyGet? rest k = none :=
        pyGet?_eq_none_of_not_mem rest k (by simpa [pyKeys] using hm.1)
      rw [hrest, pyGet?_pySet_self, pyGet?_cons, if_pos rfl]
      simp
    · rw [pyGet?_pySet_ne d k₁ k v₁ h, pyGet?_cons, if_neg (fun hc => h hc.symm)]

/-! ## Blob-store lemmas -/

theorem fsRead?_cons (e : String × FileData) (rest : FS) (p : String) :
    fsRead? (e :: rest) p = if e.1 = p then some e.2 else fsRead? rest p := by
  by_cases h : e.1 = p
  · rw [if_pos h]
    unfold fsRead?
    rw [List.find?_cons_of_pos _ (by simp [h])]
    rfl
  · rw [if_neg h]
    unfold fsRead?
    rw [List.find?_cons_of_neg _ (by simp [h])]

theorem fsRead?_write_self (fs : FS) (p : String) (d : FileData) :
    fsRead? (fsWrite fs p d) p = some d := by
  rw [fsWrite, fsRead?_cons, if_pos rfl]

theorem fsRead?_write_ne (fs : FS) (p q : String) (d : FileData) (h : q ≠ p) :
    fsRead? (fsWrite fs p d) q = fsRead? fs q := by
  rw [fsWrite, fsRead?_cons, if_neg (fun hc => h hc.symm)]

theorem writeCount_write (fs : FS) (p q : String) (d : FileData) :
    writeCount (fsWrite fs p d) q
      = writeCount fs q + (if p = q then 1 else 0) := by
  by_cases h : p = q
  · simp [writeCount, fsWrite, List.countP_cons, h]
  · have hb : (p == q) = false := by simp [h]
    simp [writeCount, fsWrite, List.countP_cons, hb, h]

theorem fsExistsB_iff_writeCount_pos (fs : FS) (p : String) :
    fsExistsB fs p = true ↔ 0 < writeCount fs p := by
  induction fs with
  | nil => simp [fsExistsB, fsRead?, writeCount]
  | cons e rest ih =>
    by_cases h : e.1 = p
    · have hb : (e.1 == p) = true := by simp [h]
      simp [fsExistsB, fsRead?_cons, h, writeCount, List.countP_cons, hb]
    · have hb : (e.1 == p) = false := by simp [h]
      simp only [fsExistsB, fsRead?_cons, if_neg h, writeCount, List.countP_cons, hb,
        if_false, Nat.add_zero]
      simpa [fsExistsB, writeCount] using ih

/-! ## Path lemmas

The registry layout separates its levels by `/`; the central fact is that
under well-formed inputs the slash count of each stored path determines
which level it belongs to. -/

/-- A well-formed path segment: nonempty and free of `/` (the spec's
registry layout treats experiment, variant and run ids as single path
segments). -/
def wfSeg (s : String) : Prop := s ≠ "" ∧ slashes s = 0

instance (s : String) : Decidable (wfSeg s) := by
  unfold wfSeg
  infer_instance

theorem slashes_append (a b : String) : slashes (a ++ b) = slashes a + slashes b := by
  simp [slashes, String.data_append, List.count_append]

theorem startsSlash_false_of_no_slash (s : String) (h : slashes s = 0) :
    startsSlash s = false := by
  unfold startsSlash
  cases hd : s.data with
  | nil => rfl
  | cons c rest =>
    simp only []
    by_contra hc
    simp only [Bool.not_eq_false, beq_iff_eq] at hc
    subst hc
    simp [slashes, hd, List.count_cons] at h

theorem endsSlash_false_of_no_slash (s : String) (h : slashes s = 0) :
    endsSlash s = false := by
  unfold endsSlash
  cases hd : s.data.getLast? with
  | none => rfl
  | some c =>
    simp only []
    by_contra hc
    simp only [Bool.not_eq_false, beq_iff_eq] at hc
    subst hc
    have hmem : '/' ∈ s.data := List.mem_of_getLast?_eq_some hd
    have hpos := List.count_pos_iff.mpr hmem
    simp only [slashes] at h
    omega

theorem ne_empty_iff_data (s : String) : s ≠ "" ↔ s.data ≠ [] := by
  constructor
  · intro h hc
    exact h (String.ext hc)
  · intro h hc
    subst hc
    exact h rfl

theorem append_ne_empty_right (a b : String) (hb : b ≠ "") : a ++ b ≠ "" := by
  intro hc
  have h2 := congrArg String.data hc
  simp only [String.data_append] at h2
  have h3 : a.data ++ b.data = [] := by simpa using h2
  exact (ne_empty_iff_data b).mp hb (List.append_eq_nil.mp h3).2

theorem endsSlash_append (a b : String) (hb : b ≠ "") :
    endsSlash (a ++ b) = endsSlash b := by
  have hbd : b.data ≠ [] := (ne_empty_iff_data b).mp hb
  unfold endsSlash
  rw [String.data_append, List.getLast?_append]
  cases hg : b.data.getLast? with
  | none => exact absurd (List.getLast?_eq_none_iff.mp hg) hbd
  | some c => simp [Option.or]

/-- Under a nonempty, non-slash-terminated base and a relative second
component, `posixpath.join` is plain concatenation with a separator. -/
theorem pjoin_eq (a b : String) (ha : a ≠ "") (hae : endsSlash a = false)
    (hb : startsSlash b = false) : pjoin a b = a ++ "/" ++ b := by
  unfold pjoin
  rw [hb]
  simp only [Bool.false_eq_true, if_false, if_neg ha, hae, if_false]

/-- Extending a well-formed absolute-or-relative base by one well-formed
segment: the join is concatenation, the result is nonempty, does not end
in a slash, and has exactly one more slash. -/
theorem seg_extend (a b : String) (ha : a ≠ "") (hae : endsSlash a = false)
    (hb : wfSeg b) :
    pjoin a b = a ++ "/" ++ b ∧ (a ++ "/" ++ b) ≠ ""
      ∧ endsSlash (a ++ "/" ++ b) = false
      ∧ slashes (a ++ "/" ++ b) = slashes a + 1 := by
  obtain ⟨hb1, hb2⟩ := hb
  refine ⟨pjoin_eq a b ha hae (startsSlash_false_of_no_slash b hb2), ?_, ?_, ?_⟩
  · exact append_ne_empty_right _ _ hb1
  · rw [endsSlash_append _ _ hb1]
    exact endsSlash_false_of_no_slash b hb2
  · have hone : slashes "/" = 1 := rfl
    rw [slashes_append, slashes_append, hb2, hone]

/-! ## Save/load path analysis -/

theorem append_left_cancel_str {s t u : String} (h : s ++ t = s ++ u) : t = u := by
  apply String.ext
  have h2 := congrArg String.data h
  simp only [String.data_append] at h2
  exact List.append_cancel_left h2

/-- The prefix `posixpath.join` prepends to a relative second component. -/
def joinBase (path : String) : String :=
  if path = "" then path else if endsSlash path = true then path else path ++ "/"

theorem pjoin_eq_joinBase (path t : String) (ht : startsSlash t = false) :
    pjoin path t = joinBase path ++ t := by
  unfold pjoin joinBase
  rw [ht]
  by_cases h1 : path = ""
  · simp [h1]
  · by_cases h2 : endsSlash path = true
    · simp [h1, h2]
    · simp [h1, h2]

theorem adir_ne_empty (path : String) : pjoin path "artifacts" ≠ "" := by
  rw [pjoin_eq_joinBase path "artifacts" (by decide)]
  exact append_ne_empty_right _ _ (by decide)

theorem adir_not_endsSlash (path : String) :
    endsSlash (pjoin path "artifacts") = false := by
  rw [pjoin_eq_joinBase path "artifacts" (by decide)]
  rw [endsSlash_append _ _ (by decide)]
  decide

/-- The metadata path of a run directory never coincides with the stored
path of a relative-named artifact: the latter has strictly more slashes. -/
theorem mpath_ne_apath (path f : String) (hf : startsSlash f = false) :
    pjoin path "erm_metadata.json" ≠ pjoin (pjoin path "artifacts") f := by
  intro h
  rw [pjoin_eq_joinBase path "erm_metadata.json" (by decide),
    pjoin_eq_joinBase path "artifacts" (by decide),
    pjoin_eq (joinBase path ++ "artifacts") f
      (append_ne_empty_right _ _ (by decide))
      (by rw [endsSlash_append _ _ (by decide)]; decide) hf] at h
  have hs := congrArg slashes h
  simp only [slashes_append] at hs
  have h1 : slashes "erm_metadata.json" = 0 := rfl
  have h2 : slashes "artifacts" = 0 := rfl
  have h3 : slashes "/" = 1 := rfl
  omega

theorem fsRead?_artifact_writes_ne (adir : String) (l : List (String × Artifact))
    (fs : FS) (q : String) (h : ∀ ka ∈ l, pjoin adir ka.2.filename ≠ q) :
    fsRead?
      (l.foldl
        (fun acc ka => fsWrite acc (pjoin adir ka.2.filename) (.blob ka.2.bytes)) fs)
      q = fsRead? fs q := by
  induction l generalizing fs with
  | nil => rfl
  | cons x rest ih =>
    rw [List.foldl_cons, ih _ (fun ka hka => h ka (List.mem_cons_of_mem x hka)),
      fsRead?_write_ne _ _ _ _ (fun hc => h x (List.mem_cons_self x rest) hc.symm)]

theorem writeCount_artifact_writes_ne (adir : String) (l : List (String × Artifact))
    (fs : FS) (q : String) (h : ∀ ka ∈ l, pjoin adir ka.2.filename ≠ q) :
    writeCount
      (l.foldl
        (fun acc ka => fsWrite acc (pjoin adir ka.2.filename) (.blob ka.2.bytes)) fs)
      q = writeCount fs q := by
  induction l generalizing fs with
  | nil => rfl
  | cons x rest ih =>
    rw [List.foldl_cons, ih _ (fun ka hka => h ka (List.mem_cons_of_mem x hka)),
      writeCount_write, if_neg (h x (List.mem_cons_self x rest)), Nat.add_zero]

theorem fsRead?_artifact_writes_mem (adir : String) (l : List (String × Artifact))
    (fs : FS) (hnd : (l.map (fun ka => pjoin adir ka.2.filename)).Nodup)
    (ka : String × Artifact) (hka : ka ∈ l) :
    fsRead?
      (l.foldl
        (fun acc ka => fsWrite acc (pjoin adir ka.2.filename) (.blob ka.2.bytes)) fs)
      (pjoin adir ka.2.filename) = some (.blob ka.2.bytes) := by
  induction l generalizing fs with
  | nil => cases hka
  | cons x rest ih =>
    simp only [List.map_cons, List.nodup_cons] at hnd
    rcases List.mem_cons.mp hka with heq | hmem
    · subst heq
      rw [List.foldl_cons,
        fsRead?_artifact_writes_ne adir rest _ _
          (fun ka' hka' hc => hnd.1 (by rw [← hc]; exact List.mem_map_of_mem _ hka')),
        fsRead?_write_self]
    · rw [List.foldl_cons]
      exact ih _ hnd.2 hmem

theorem nodup_apaths (adir : String) (l : List (String × Artifact))
    (hnd : (l.map (fun ka => ka.2.filename)).Nodup)
    (hrel : ∀ ka ∈ l, startsSlash ka.2.filename = false)
    (hne : adir ≠ "") (hends : endsSlash adir = false) :
    (l.map (fun ka => pjoin adir ka.2.filename)).Nodup := by
  have h1 : l.map (fun ka => pjoin adir ka.2.filename)
      = l.map (fun ka => adir ++ "/" ++ ka.2.filename) :=
    List.map_congr_left (fun ka hka => pjoin_eq _ _ hne hends (hrel ka hka))
  have h2 : l.map (fun ka => adir ++ "/" ++ ka.2.filename)
      = (l.map (fun ka => ka.2.filename)).map (fun f => adir ++ "/" ++ f) := by
    rw [List.map_map]
    rfl
  rw [h1, h2]
  exact hnd.map (fun f₁ f₂ h => append_left_cancel_str h)

theorem loadArtifacts_roundtrip (fs' : FS) (adir : String)
    (l : List (String × Artifact))
    (h : ∀ ka ∈ l, fsRead? fs' (pjoin adir ka.2.filename) = some (.blob ka.2.bytes)) :
    loadArtifacts fs' adir (l.map (fun ka => (ka.1, ka.2.toBase))) = .ok l := by
  induction l with
  | nil => rfl
  | cons x rest ih =>
    obtain ⟨k, a⟩ := x
    simp only [List.map_cons]
    show loadArtifacts fs' adir ((k, a.toBase) :: rest.map (fun ka => (ka.1, ka.2.toBase)))
      = .ok ((k, a) :: rest)
    unfold loadArtifacts
    have hread : fsRead? fs' (pjoin adir a.toBase.filename) = some (.blob a.bytes) :=
      h (k, a) (List.mem_cons_self _ _)
    rw [hread, ih (fun ka hka => h ka (List.mem_cons_of_mem _ hka))]
    rfl

/-! ## Sorting lemmas (Python `list.sort()` on strings) -/

theorem lexLe_refl (l : List Char) : lexLe l l = true := by
  induction l with
  | nil => rfl
  | cons a as ih =>
    unfold lexLe
    simp [ih]

theorem lexLe_total (a b : List Char) : lexLe a b = true ∨ lexLe b a = true := by
  induction a generalizing b with
  | nil => left; rfl
  | cons x xs ih =>
    cases b with
    | nil => right; rfl
    | cons y ys =>
      unfold lexLe
      rcases Nat.lt_trichotomy x.toNat y.toNat with h | h | h
      · left
        simp [h]
      · have h1 : ¬ x.toNat < y.toNat := by omega
        have h2 : ¬ y.toNat < x.toNat := by omega
        simpa [h1, h2] using ih ys
      · right
        simp [h]

theorem lexLe_trans {a b c : List Char} (h1 : lexLe a b = true)
    (h2 : lexLe b c = true) : lexLe a c = true := by
  induction a generalizing b c with
  | nil => rfl
  | cons x xs ih =>
    cases b with
    | nil => simp [lexLe] at h1
    | cons y ys =>
      cases c with
      | nil => simp [lexLe] at h2
      | cons z zs =>
        unfold lexLe at h1 h2 ⊢
        by_cases hxy : x.toNat < y.toNat
        · simp [hxy] at h1
          by_cases hyz : y.toNat < z.toNat
          · have : x.toNat < z.toNat := by omega
            simp [this]
          · by_cases hzy : z.toNat < y.toNat
            · simp [hyz, hzy] at h2
            · have : x.toNat < z.toNat := by omega
              simp [this]
        · by_cases hyx : y.toNat < x.toNat
          · simp [hxy, hyx] at h1
          · have hxy2 : x.toNat = y.toNat := by omega
            simp [hxy, hyx] at h1
            by_cases hyz : y.toNat < z.toNat
            · have : x.toNat < z.toNat := by omega
              simp [this]
            · by_cases hzy : z.toNat < y.toNat
              · simp [hyz, hzy] at h2
              · have h3 : ¬ x.toNat < z.toNat := by omega
                have h4 : ¬ z.toNat < x.toNat := by omega
                simp [hyz, hzy] at h2
                simp [h3, h4]
                exact ih h1 h2

theorem strLe_refl (s : String) : strLe s s = true := lexLe_refl s.data

theorem strLe_total (a b : String) : strLe a b = true ∨ strLe b a = true :=
  lexLe_total a.data b.data

theorem strLe_trans {a b c : String} (h1 : strLe a b = true)
    (h2 : strLe b c = true) : strLe a c = true := lexLe_trans h1 h2

theorem mem_insortStr (x y : String) (l : List String) :
    y ∈ insortStr x l ↔ y = x ∨ y ∈ l := by
  induction l with
  | nil => simp [insortStr]
  | cons z zs ih =>
    unfold insortStr
    by_cases h : strLe x z = true
    · simp [h]
    · simp only [if_neg h, List.mem_cons, ih]
      tauto

theorem pairwise_insortStr (x : String) (l : List String)
    (hl : l.Pairwise (fun a b => strLe a b = true)) :
    (insortStr x l).Pairwise (fun a b => strLe a b = true) := by
  induction l with
  | nil => simp [insortStr]
  | cons z zs ih =>
    rcases List.pairwise_cons.mp hl with ⟨hz, hzs⟩
    unfold insortStr
    by_cases h : strLe x z = true
    · rw [if_pos h]
      refine List.pairwise_cons.mpr ⟨?_, hl⟩
      intro y hy
      rcases List.mem_cons.mp hy with rfl | hy2
      · exact h
      · exact strLe_trans h (hz y hy2)
    · rw [if_neg h]
      have hzx : strLe z x = true := (strLe_total x z).resolve_left h
      refine List.pairwise_cons.mpr ⟨?_, ih hzs⟩
      intro y hy
      rcases (mem_insortStr x y zs).mp hy with rfl | hy2
      · exact hzx
      · exact hz y hy2

theorem mem_sortStrings (x : String) (l : List String) :
    x ∈ sortStrings l ↔ x ∈ l := by
  induction l with
  | nil => simp [sortStrings]
  | cons z zs ih =>
    show x ∈ insortStr z (sortStrings zs) ↔ _
    rw [mem_insortStr]
    simp [ih]

theorem pairwise_sortStrings (l : List String) :
    (sortStrings l).Pairwise (fun a b => strLe a b = true) := by
  induction l with
  | nil => simp [sortStrings]
  | cons z zs ih => exact pairwise_insortStr z (sortStrings zs) ih

theorem sortStrings_ne_nil (l : List String) (h : l ≠ []) : sortStrings l ≠ [] := by
  cases l with
  | nil => exact absurd rfl h
  | cons z zs =>
    intro hc
    have : z ∈ sortStrings (z :: zs) := (mem_sortStrings z _).mpr (List.mem_cons_self z zs)
    rw [hc] at this
    cases this

theorem pairwise_le_getLast (l : List String) (h : l ≠ [])
    (hp : l.Pairwise (fun a b => strLe a b = true)) (x : String) (hx : x ∈ l) :
    strLe x (l.getLast h) = true := by
  induction l with
  | nil => exact absurd rfl h
  | cons z zs ih =>
    rcases List.pairwise_cons.mp hp with ⟨hz, hzs⟩
    cases zs with
    | nil =>
      rcases List.mem_cons.mp hx with rfl | hx2
      · exact strLe_refl x
      · cases hx2
    | cons w ws =>
      rw [List.getLast_cons (by simp)]
      rcases List.mem_cons.mp hx with rfl | hx2
      · exact hz _ (List.getLast_mem (by simp))
      · exact ih (by simp) hzs hx2

/-! ## Helper lemmas about `log_dict` -/

theorem log_dict_at_name (er : ExperimentRun) (d : String) (m : PyDict Value) :
    pyGet? (log_dict er d m).dicts d
      = some (pyUpdate ((pyGet? er.dicts d).getD []) m) := by
  unfold log_dict
  by_cases hmem : pyMem er.dicts d
  · simp only [if_pos hmem, pyGet?_pySet_self]
  · simp only [if_neg hmem, pyGet?_pySet_self]
    have hnone : pyGet? er.dicts d = none := by
      unfold pyMem at hmem
      cases h : pyGet? er.dicts d with
      | none => rfl
      | some x =>
        rw [h] at hmem
        simp at hmem
    rw [hnone]
    rfl

theorem log_dict_at_other (er : ExperimentRun) (d : String) (m : PyDict Value)
    (d' : String) (hne : d' ≠ d) :
    pyGet? (log_dict er d m).dicts d' = pyGet? er.dicts d' := by
  unfold log_dict
  by_cases hmem : pyMem er.dicts d
  · simp only [if_pos hmem, pyGet?_pySet_ne _ _ _ _ hne]
  · simp only [if_neg hmem, pyGet?_pySet_ne _ _ _ _ hne]

/-- A shared concrete run used by the evaluation witnesses. -/
def sampleRun : ExperimentRun :=
  { experiment_id := "e", variant_id := "main", run_id := "r", timestamp_utc := 0,
    params := [], metrics := [], dicts := [], artifacts := [] }

/-- A trivial instantiation of the external rendering capabilities. -/
def sampleExt : RenderExt :=
  { plotlyFigHtml := fun _ => "", plotlyJs := "", b64 := fun _ => "",
    floatStr := fun _ => "", timestampStr := fun _ => "", humanBytes := fun _ => "" }

instance {e a : Type} [DecidableEq e] [DecidableEq a] : DecidableEq (Except e a) :=
  fun x y =>
    match x, y with
    | .error e1, .error e2 =>
      if h : e1 = e2 then isTrue (by rw [h]) else
        isFalse (by intro hc; cases hc; exact h rfl)
    | .error _, .ok _ => isFalse (by intro hc; cases hc)
    | .ok _, .error _ => isFalse (by intro hc; cases hc)
    | .ok a1, .ok a2 =>
      if h : a1 = a2 then isTrue (by rw [h]) else
        isFalse (by intro hc; cases hc; exact h rfl)

/-- Shorthand for a run with one artifact upserted (what `log_artifact`
stores on success). -/
def withArtifact (er : ExperimentRun) (aid : String) (a : Artifact) : ExperimentRun :=
  { er with artifacts := pySet er.artifacts aid a }

/-- The UTF-8 encoding of a string, as byte values. -/
def utf8Bytes (s : String) : List Nat := s.toUTF8.toList.map (fun c => c.toNat)

/-! ## Claims -/

/-- C5: after `log_dict(d, m1)` then `log_dict(d, m2)` (with dict literals,
whose keys are unique), `dicts[d]` maps every key of `m2` to `m2`'s value,
every key of `m1` not in `m2` to `m1`'s value, and every other key to
whatever the pre-existing named dict bound it to — so `dicts[d]` contains
the union of `m1` and `m2` with `m2` winning, and existing keys absent from
the new map are never removed or replaced. -/
theorem c5_log_dict_merge (er : ExperimentRun) (d : String) (m1 m2 : PyDict Value)
    (h1 : (pyKeys m1).Nodup) (h2 : (pyKeys m2).Nodup) (k : String) :
    pyGet? ((pyGet? (log_dict (log_dict er d m1) d m2).dicts d).getD []) k
      = (pyGet? m2 k).or ((pyGet? m1 k).or (pyGet? ((pyGet? er.dicts d).getD []) k)) := by
  rw [log_dict_at_name, log_dict_at_name]
  simp only [Option.getD_some]
  rw [pyGet?_pyUpdate _ _ h2, pyGet?_pyUpdate _ _ h1]

/-- Evaluation witness for C5 at a concrete run. -/
theorem c5_log_dict_merge_witness :
    (pyKeys [("a", Value.i 1)]).Nodup ∧ (pyKeys [("b", Value.i 2)]).Nodup
    ∧ pyGet? ((pyGet? (log_dict (log_dict sampleRun "d" [("a", Value.i 1)]) "d"
          [("b", Value.i 2)]).dicts "d").getD []) "a"
      = (pyGet? [("b", Value.i 2)] "a").or ((pyGet? [("a", Value.i 1)] "a").or
          (pyGet? ((pyGet? sampleRun.dicts "d").getD []) "a")) :=
  ⟨by decide, by decide,
    c5_log_dict_merge sampleRun "d" [("a", Value.i 1)] [("b", Value.i 2)]
      (by decide) (by decide) "a"⟩

/-- C9: each single-collection logging operation only touches its own
container: `log_param` leaves everything but `params` unchanged,
`log_metric` everything but `metrics`, and `log_dict` everything but the
named entry of `dicts` (other named dicts included). -/
theorem c9_logging_frame (er : ExperimentRun) (k : String) (v : Value)
    (k2 : String) (v2 : Value) (d : String) (data : PyDict Value) (d' : String)
    (hne : d' ≠ d) :
    (log_param er k v).experiment_id = er.experiment_id
    ∧ (log_param er k v).variant_id = er.variant_id
    ∧ (log_param er k v).run_id = er.run_id
    ∧ (log_param er k v).timestamp_utc = er.timestamp_utc
    ∧ (log_param er k v).metrics = er.metrics
    ∧ (log_param er k v).dicts = er.dicts
    ∧ (log_param er k v).artifacts = er.artifacts
    ∧ (log_metric er k2 v2).experiment_id = er.experiment_id
    ∧ (log_metric er k2 v2).variant_id = er.variant_id
    ∧ (log_metric er k2 v2).run_id = er.run_id
    ∧ (log_metric er k2 v2).timestamp_utc = er.timestamp_utc
    ∧ (log_metric er k2 v2).params = er.params
    ∧ (log_metric er k2 v2).dicts = er.dicts
    ∧ (log_metric er k2 v2).artifacts = er.artifacts
    ∧ (log_dict er d data).experiment_id = er.experiment_id
    ∧ (log_dict er d data).variant_id = er.variant_id
    ∧ (log_dict er d data).run_id = er.run_id
    ∧ (log_dict er d data).timestamp_utc = er.timestamp_utc
    ∧ (log_dict er d data).params = er.params
    ∧ (log_dict er d data).metrics = er.metrics
    ∧ (log_dict er d data).artifacts = er.artifacts
    ∧ pyGet? (log_dict er d data).dicts d' = pyGet? er.dicts d' := by
  refine ⟨rfl, rfl, rfl, rfl, rfl, rfl, rfl, rfl, rfl, rfl, rfl, rfl, rfl, rfl,
    ?_, ?_, ?_, ?_, ?_, ?_, ?_, log_dict_at_other er d data d' hne⟩
  all_goals
    unfold log_dict
    by_cases hmem : pyMem er.dicts d
    · simp only [if_pos hmem]
    · simp only [if_neg hmem]

/-- Evaluation witness for C9 at a concrete run. -/
theorem c9_logging_frame_witness :
    ("x" : String) ≠ "d"
    ∧ pyGet? (log_dict sampleRun "d" [("a", Value.i 1)]).dicts "x"
      = pyGet? sampleRun.dicts "x" :=
  ⟨by decide,
    (c9_logging_frame sampleRun "p" (Value.i 0) "m" (Value.i 0) "d"
      [("a", Value.i 1)] "x" (by decide)).2.2.2.2.2.2.2.2.2.2.2.2.2.2.2.2.2.2.2.2.2⟩

/-- C6 (code bug): `log_text` UTF-8-encodes and stores a string input as a
BINARY artifact whose filename is the artifact id, but on a bytes input it
raises `UnboundLocalError`, because the byte branch is guarded by
`isinstance(bytes, str)` — a check of the builtin type `bytes` against
`str`, which is always false — so `data` is never assigned before
`self.log_artifact(data, ...)` runs.  The claimed pass-through of byte
input never happens. -/
theorem c6_log_text_behaviour (fs : FS) (er : ExperimentRun) (s : String)
    (b : List Nat) (aid : String) :
    log_text fs er (.inl s) aid = .ok (withArtifact er aid ⟨aid, aid, .binary, utf8Bytes s⟩)
    ∧ log_text fs er (.inr b) aid = .error .unboundLocal :=
  ⟨rfl, rfl⟩

/-- C10: when the artifact source is a file path, the stored filename is
the base name of that path, for every caller-supplied `filename` argument
of `log_artifact` and `log_image` alike (including `log_image`'s default
of the artifact id): the conclusion does not depend on `fn` or `fn2`. -/
theorem c10_path_source_basename (fs : FS) (er : ExperimentRun) (p : String)
    (aid : String) (fn fn2 : Option String) (t : ArtifactType) (b : List Nat)
    (h : readBlob? fs p = some b) :
    log_artifact fs er (.path p) aid fn t
      = .ok (withArtifact er aid ⟨aid, basename p, t, b⟩)
    ∧ log_image fs er (.path p) aid fn2
      = .ok (withArtifact er aid ⟨aid, basename p, .png, b⟩) := by
  constructor
  · simp only [log_artifact, h]
    rfl
  · simp only [log_image, log_artifact, h]
    rfl

/-- Evaluation witness for C10 at a concrete store and path. -/
theorem c10_path_source_basename_witness :
    readBlob? [("d/f.png", FileData.blob [7])] "d/f.png" = some [7]
    ∧ log_artifact [("d/f.png", FileData.blob [7])] sampleRun (.path "d/f.png")
        "art" (some "ignored") .binary
      = .ok (withArtifact sampleRun "art" ⟨"art", basename "d/f.png", .binary, [7]⟩)
    ∧ log_image [("d/f.png", FileData.blob [7])] sampleRun (.path "d/f.png")
        "art" none
      = .ok (withArtifact sampleRun "art" ⟨"art", basename "d/f.png", .png, [7]⟩) :=
  ⟨by decide,
    (c10_path_source_basename [("d/f.png", FileData.blob [7])] sampleRun "d/f.png"
      "art" (some "ignored") none .binary [7] (by decide)).1,
    (c10_path_source_basename [("d/f.png", FileData.blob [7])] sampleRun "d/f.png"
      "art" (some "ignored") none .binary [7] (by decide)).2⟩

/-- Counterexample for C2 as stated: at a concrete one-run input,
`compare_runs` yields the `AttributeError` raised by the Features table's
`er.features` access — no HTML document string is returned (`isOk` is
false). -/
theorem c2_counterexample :
    compare_runs sampleExt [sampleRun] false = .error .attributeError
    ∧ (compare_runs sampleExt [sampleRun] false).isOk = false :=
  ⟨rfl, rfl⟩

/-- C2 (amended): `compare_runs` never returns a document for a nonempty
input: building the Features table evaluates `er.features` for each run,
and `ExperimentRun` has no `features` attribute, so the call raises
`AttributeError` instead of returning HTML.  (The code also emits the
Metrics table before the named-dict tables, the reverse of the claimed
order, so the claim misdescribes the document it says is produced.) -/
theorem c2_compare_runs_raises (ext : RenderExt) (runs : List ExperimentRun)
    (inject_css : Bool) (h : runs ≠ []) :
    compare_runs ext runs inject_css = .error .attributeError := by
  cases runs with
  | nil => exact absurd rfl h
  | cons r rs => rfl

/-- Evaluation witness for C2 at a one-run input. -/
theorem c2_compare_runs_raises_witness :
    ([sampleRun] : List ExperimentRun) ≠ []
    ∧ compare_runs sampleExt [sampleRun] false = .error .attributeError :=
  ⟨by decide, c2_compare_runs_raises sampleExt [sampleRun] false (by decide)⟩

/-- C8 (corrected): requesting the latest run of a variant with zero runs
does fail, but with `IndexError` (from `runs[-1]` on an empty list), not
with the not-found kind (`FileNotFoundError`) that missing files raise. -/
theorem c8_zero_runs_index_error (fs : FS) (root e v : String)
    (h : list_runs fs root e v = []) :
    get_latest_run_for_variant fs root e v = .error .indexError := by
  unfold get_latest_run_for_variant
  rw [h]
  rfl

/-- Evaluation witness for C8's amended statement at an empty registry. -/
theorem c8_zero_runs_index_error_witness :
    list_runs [] "registry" "exp" "var" = []
    ∧ get_latest_run_for_variant [] "registry" "exp" "var" = .error .indexError :=
  ⟨rfl, c8_zero_runs_index_error [] "registry" "exp" "var" rfl⟩

/-- Counterexample for C8 as stated: on a variant with zero runs the
raised error is `IndexError`, not the claimed not-found kind. -/
theorem c8_counterexample :
    get_latest_run_for_variant [] "registry" "exp" "var" = .error .indexError
    ∧ get_latest_run_for_variant [] "registry" "exp" "var" ≠ .error .notFound := by
  constructor
  · rfl
  · decide

/-! ## Marker write-once infrastructure -/

theorem pjoin_seg_facts (a b : String) (ha : a ≠ "") (hae : endsSlash a = false)
    (hb : wfSeg b) :
    pjoin a b ≠ "" ∧ endsSlash (pjoin a b) = false
      ∧ slashes (pjoin a b) = slashes a + 1 := by
  obtain ⟨heq, h1, h2, h3⟩ := seg_extend a b ha hae hb
  rw [heq]
  exact ⟨h1, h2, h3⟩

/-- A well-formed run: segment-shaped identity components and run-relative
artifact filenames (the shape the spec's registry layout prescribes). -/
def wfRun (er : ExperimentRun) : Prop :=
  wfSeg er.experiment_id ∧ wfSeg er.variant_id ∧ wfSeg er.run_id
  ∧ ∀ ka ∈ er.artifacts, startsSlash ka.2.filename = false

instance (er : ExperimentRun) : Decidable (wfRun er) := by
  unfold wfRun
  infer_instance

/-- The paths of the three registry marker kinds under a root. -/
def isMarkerPath (root p : String) : Prop :=
  p = pjoin root ".erm_registry.json"
  ∨ (∃ e, wfSeg e ∧ p = pjoin (pjoin root e) ".erm_experiment.json")
  ∨ (∃ e v, wfSeg e ∧ wfSeg v
      ∧ p = pjoin (pjoin (pjoin root e) v) ".erm_variant.json")

theorem isMarkerPath_slashes (root p : String) (hr : root ≠ "")
    (hre : endsSlash root = false) (hp : isMarkerPath root p) :
    slashes p ≤ slashes root + 3 := by
  rcases hp with h | ⟨e, he, h⟩ | ⟨e, v, he, hv, h⟩
  · subst h
    obtain ⟨-, -, hs⟩ := pjoin_seg_facts root ".erm_registry.json" hr hre (by decide)
    omega
  · subst h
    obtain ⟨h1ne, h1e, h1s⟩ := pjoin_seg_facts root e hr hre he
    obtain ⟨-, -, hs⟩ :=
      pjoin_seg_facts _ ".erm_experiment.json" h1ne h1e (by decide)
    omega
  · subst h
    obtain ⟨h1ne, h1e, h1s⟩ := pjoin_seg_facts root e hr hre he
    obtain ⟨h2ne, h2e, h2s⟩ := pjoin_seg_facts _ v h1ne h1e hv
    obtain ⟨-, -, hs⟩ := pjoin_seg_facts _ ".erm_variant.json" h2ne h2e (by decide)
    omega

theorem writeCount_createIfAbsent_le (fs : FS) (q : String) (d : FileData)
    (p : String) :
    writeCount (createIfAbsent fs q d) p ≤ max (writeCount fs p) 1 := by
  unfold createIfAbsent
  by_cases hex : fsExistsB fs q = true
  · rw [if_pos hex]
    exact le_max_left _ _
  · rw [if_neg hex, writeCount_write]
    by_cases hq : q = p
    · subst hq
      have h0 : writeCount fs q = 0 := by
        by_contra hc
        exact hex ((fsExistsB_iff_writeCount_pos fs q).mpr (Nat.pos_of_ne_zero hc))
      rw [h0, if_pos rfl]
      exact le_max_right _ _
    · rw [if_neg hq, Nat.add_zero]
      exact le_max_left _ _

theorem writeCount_createIfAbsent_ge (fs : FS) (q : String) (d : FileData)
    (p : String) :
    writeCount fs p ≤ writeCount (createIfAbsent fs q d) p := by
  unfold createIfAbsent
  by_cases hex : fsExistsB fs q = true
  · rw [if_pos hex]
  · rw [if_neg hex, writeCount_write]
    omega

theorem writeCount_artifact_writes_ge (adir : String) (l : List (String × Artifact))
    (fs : FS) (p : String) :
    writeCount fs p ≤ writeCount
      (l.foldl
        (fun acc ka => fsWrite acc (pjoin adir ka.2.filename) (.blob ka.2.bytes)) fs)
      p := by
  induction l generalizing fs with
  | nil => exact le_refl _
  | cons x rest ih =>
    rw [List.foldl_cons]
    refine le_trans ?_ (ih _)
    rw [writeCount_write]
    omega

theorem writeCount_save_run_to_path_ne (fs : FS) (er : ExperimentRun) (path : String)
    (ov : Bool) (p : String)
    (hm : pjoin path "erm_metadata.json" ≠ p)
    (ha : ∀ ka ∈ er.artifacts, pjoin (pjoin path "artifacts") ka.2.filename ≠ p) :
    writeCount (save_run_to_path fs er path ov).1 p = writeCount fs p := by
  unfold save_run_to_path
  by_cases hcond : (fsExistsB fs (pjoin path "erm_metadata.json") && !ov) = true
  · rw [if_pos hcond]
  · rw [if_neg hcond]
    simp only []
    rw [writeCount_artifact_writes_ne _ _ _ _ ha, writeCount_write, if_neg hm,
      Nat.add_zero]

theorem writeCount_save_run_to_path_ge (fs : FS) (er : ExperimentRun) (path : String)
    (ov : Bool) (p : String) :
    writeCount fs p ≤ writeCount (save_run_to_path fs er path ov).1 p := by
  unfold save_run_to_path
  by_cases hcond : (fsExistsB fs (pjoin path "erm_metadata.json") && !ov) = true
  · rw [if_pos hcond]
  · rw [if_neg hcond]
    simp only []
    refine le_trans ?_ (writeCount_artifact_writes_ge _ _ _ _)
    rw [writeCount_write]
    omega

theorem max_collapse (a : Nat) : max (max a 1) 1 = max a 1 := by
  rw [max_assoc, max_self]

/-- One `save_run_to_registry` call never takes the write count of any
marker path above `max` of its previous count and one. -/
theorem save_registry_step_bound (fs : FS) (er : ExperimentRun) (root : String)
    (ov : Bool) (now : Nat) (hr : root ≠ "") (hre : endsSlash root = false)
    (hwf : wfRun er) (p : String) (hp : isMarkerPath root p) :
    writeCount (save_run_to_registry fs er root ov now).1 p
      ≤ max (writeCount fs p) 1 := by
  obtain ⟨he, hv, hrid, hart⟩ := hwf
  have hps : slashes p ≤ slashes root + 3 := isMarkerPath_slashes root p hr hre hp
  obtain ⟨h1ne, h1e, h1s⟩ := pjoin_seg_facts root er.experiment_id hr hre he
  obtain ⟨h2ne, h2e, h2s⟩ := pjoin_seg_facts _ er.variant_id h1ne h1e hv
  obtain ⟨h3ne, h3e, h3s⟩ := pjoin_seg_facts _ er.run_id h2ne h2e hrid
  obtain ⟨hmne, hme, hms⟩ :=
    pjoin_seg_facts (pjoin (pjoin (pjoin root er.experiment_id) er.variant_id)
      er.run_id) "erm_metadata.json" h3ne h3e (by decide)
  obtain ⟨hane, hae, has⟩ :=
    pjoin_seg_facts (pjoin (pjoin (pjoin root er.experiment_id) er.variant_id)
      er.run_id) "artifacts" h3ne h3e (by decide)
  have hm : pjoin (pjoin (pjoin (pjoin root er.experiment_id) er.variant_id)
      er.run_id) "erm_metadata.json" ≠ p := by
    intro hc
    have hcs := congrArg slashes hc
    omega
  have hap : ∀ ka ∈ er.artifacts,
      pjoin (pjoin (pjoin (pjoin (pjoin root er.experiment_id) er.variant_id)
        er.run_id) "artifacts") ka.2.filename ≠ p := by
    intro ka hka hc
    rw [pjoin_eq _ _ hane hae (hart ka hka)] at hc
    have hcs := congrArg slashes hc
    rw [slashes_append, slashes_append] at hcs
    have hone : slashes "/" = 1 := rfl
    omega
  simp only [save_run_to_registry]
  rw [writeCount_save_run_to_path_ne _ _ _ _ _ hm hap]
  have s1 : writeCount
      (createIfAbsent fs (pjoin root ".erm_registry.json") (.markerRegistry now)) p
    ≤ max (writeCount fs p) 1 := writeCount_createIfAbsent_le _ _ _ _
  have s2 : writeCount
      (createIfAbsent
        (createIfAbsent fs (pjoin root ".erm_registry.json") (.markerRegistry now))
        (pjoin (pjoin root er.experiment_id) ".erm_experiment.json")
        (.markerExperiment er.experiment_id now)) p
    ≤ max (writeCount fs p) 1 :=
    le_trans (writeCount_createIfAbsent_le _ _ _ _)
      (max_le s1 (le_max_right _ _))
  exact le_trans (writeCount_createIfAbsent_le _ _ _ _)
    (max_le s2 (le_max_right _ _))

/-- One `save_run_to_registry` call never lowers any write count. -/
theorem save_registry_step_ge (fs : FS) (er : ExperimentRun) (root : String)
    (ov : Bool) (now : Nat) (p : String) :
    writeCount fs p ≤ writeCount (save_run_to_registry fs er root ov now).1 p := by
  simp only [save_run_to_registry]
  refine le_trans ?_ (writeCount_save_run_to_path_ge _ _ _ _ _)
  refine le_trans ?_ (writeCount_createIfAbsent_ge _ _ _ _)
  refine le_trans ?_ (writeCount_createIfAbsent_ge _ _ _ _)
  exact writeCount_createIfAbsent_ge _ _ _ _

/-- C4: over any sequence of `save_run_to_registry` calls against the same
registry root (with segment-shaped ids and run-relative artifact
filenames), every marker path is written at most once — starting from a
store where it was never written, its write count stays at most one, and
once it exists it is never written again (count unchanged whenever it was
positive). -/
theorem c4_markers_write_once (root : String) (hr : root ≠ "")
    (hre : endsSlash root = false) (calls : List (ExperimentRun × Bool × Nat))
    (hwf : ∀ c ∈ calls, wfRun c.1) (fs0 : FS) (p : String)
    (hp : isMarkerPath root p) :
    writeCount
      (calls.foldl
        (fun fs c => (save_run_to_registry fs c.1 root c.2.1 c.2.2).1) fs0) p
      ≤ max (writeCount fs0 p) 1
    ∧ (fsExistsB fs0 p = true →
      writeCount
        (calls.foldl
          (fun fs c => (save_run_to_registry fs c.1 root c.2.1 c.2.2).1) fs0) p
        = writeCount fs0 p) := by
  have hbound : ∀ (l : List (ExperimentRun × Bool × Nat)),
      (∀ c ∈ l, wfRun c.1) → ∀ (fs : FS),
      writeCount
        (l.foldl (fun fs c => (save_run_to_registry fs c.1 root c.2.1 c.2.2).1) fs) p
        ≤ max (writeCount fs p) 1 := by
    intro l
    induction l with
    | nil =>
      intro _ fs
      exact le_max_left _ _
    | cons c rest ih =>
      intro hl fs
      rw [List.foldl_cons]
      refine le_trans (ih (fun c' hc' => hl c' (List.mem_cons_of_mem c hc')) _) ?_
      refine le_trans (max_le_max
        (save_registry_step_bound fs c.1 root c.2.1 c.2.2 hr hre
          (hl c (List.mem_cons_self c rest)) p hp) (le_refl 1)) ?_
      rw [max_collapse]
  have hge : ∀ (l : List (ExperimentRun × Bool × Nat)) (fs : FS),
      writeCount fs p
        ≤ writeCount
          (l.foldl (fun fs c => (save_run_to_registry fs c.1 root c.2.1 c.2.2).1) fs)
          p := by
    intro l
    induction l with
    | nil => intro fs; exact le_refl _
    | cons c rest ih =>
      intro fs
      rw [List.foldl_cons]
      exact le_trans (save_registry_step_ge fs c.1 root c.2.1 c.2.2 p) (ih _)
  refine ⟨hbound calls hwf fs0, fun hex => ?_⟩
  have hpos : 0 < writeCount fs0 p := (fsExistsB_iff_writeCount_pos fs0 p).mp hex
  have h1 := hbound calls hwf fs0
  have h2 := hge calls fs0
  have hmax : max (writeCount fs0 p) 1 = writeCount fs0 p := by omega
  omega

/-- A first sample run for the registry-save witness. -/
def runR1 : ExperimentRun :=
  { experiment_id := "exp", variant_id := "main", run_id := "r1",
    timestamp_utc := 0, params := [], metrics := [], dicts := [], artifacts := [] }

/-- A second sample run under the same experiment and variant. -/
def runR2 : ExperimentRun :=
  { experiment_id := "exp", variant_id := "main", run_id := "r2",
    timestamp_utc := 1, params := [], metrics := [], dicts := [], artifacts := [] }

/-- Two registry-save calls under the same experiment and variant. -/
def c4calls : List (ExperimentRun × Bool × Nat) := [(runR1, false, 0), (runR2, false, 1)]

/-- Evaluation witness for C4: two runs saved under the same experiment and
variant of a fresh registry leave the registry marker written exactly once
(count at most one from zero). -/
theorem c4_markers_write_once_witness :
    ("reg" : String) ≠ "" ∧ endsSlash "reg" = false
    ∧ (∀ c ∈ c4calls, wfRun c.1)
    ∧ isMarkerPath "reg" (pjoin "reg" ".erm_registry.json")
    ∧ writeCount
        (c4calls.foldl
          (fun fs c => (save_run_to_registry fs c.1 "reg" c.2.1 c.2.2).1) [])
        (pjoin "reg" ".erm_registry.json")
      ≤ max (writeCount ([] : FS) (pjoin "reg" ".erm_registry.json")) 1 :=
  ⟨by decide, by decide, by decide, Or.inl rfl,
    (c4_markers_write_once "reg" (by decide) (by decide) c4calls (by decide) [] _
      (Or.inl rfl)).1⟩

/-- C3: saving to a path whose `erm_metadata.json` already exists with
`overwrite=False` raises `FileExistsError` with no write performed (the
store comes back unchanged); with `overwrite=True` the save succeeds and
the stored metadata document at that path is exactly the new run's
document (artifact filenames run-relative, as the data model prescribes). -/
theorem c3_overwrite_guard (fs : FS) (er : ExperimentRun) (path : String)
    (hx : fsExistsB fs (pjoin path "erm_metadata.json") = true)
    (hrel : ∀ ka ∈ er.artifacts, startsSlash ka.2.filename = false) :
    save_run_to_path fs er path false = (fs, some .fileExists)
    ∧ (save_run_to_path fs er path true).2 = none
    ∧ fsRead? (save_run_to_path fs er path true).1 (pjoin path "erm_metadata.json")
        = some (.meta (metadataOfRun er)) := by
  refine ⟨?_, ?_, ?_⟩
  · simp [save_run_to_path, hx]
  · simp [save_run_to_path]
  · unfold save_run_to_path
    simp only [Bool.not_true, Bool.and_false, Bool.false_eq_true, if_false]
    rw [fsRead?_artifact_writes_ne _ _ _ _
      (fun ka hka => Ne.symm (mpath_ne_apath path ka.2.filename (hrel ka hka)))]
    exact fsRead?_write_self _ _ _

/-- The pre-existing store of the C3 witness: the target path already holds
a metadata document. -/
def c3fs : FS := [("p/erm_metadata.json", FileData.meta (metadataOfRun sampleRun))]

/-- Evaluation witness for C3 at a concrete occupied path. -/
theorem c3_overwrite_guard_witness :
    fsExistsB c3fs (pjoin "p" "erm_metadata.json") = true
    ∧ (∀ ka ∈ runR1.artifacts, startsSlash ka.2.filename = false)
    ∧ save_run_to_path c3fs runR1 "p" false = (c3fs, some .fileExists)
    ∧ (save_run_to_path c3fs runR1 "p" true).2 = none
    ∧ fsRead? (save_run_to_path c3fs runR1 "p" true).1 (pjoin "p" "erm_metadata.json")
        = some (.meta (metadataOfRun runR1)) :=
  ⟨by decide, by decide,
    (c3_overwrite_guard c3fs runR1 "p" (by decide) (by decide)).1,
    (c3_overwrite_guard c3fs runR1 "p" (by decide) (by decide)).2.1,
    (c3_overwrite_guard c3fs runR1 "p" (by decide) (by decide)).2.2⟩

/-- The C1 counterexample run: two artifacts under different ids share the
filename `f` with different bytes. -/
def c1Run : ExperimentRun :=
  { experiment_id := "e", variant_id := "main", run_id := "r", timestamp_utc := 0,
    params := [], metrics := [], dicts := [],
    artifacts := [("a1", ⟨"a1", "f", .binary, [0]⟩), ("a2", ⟨"a2", "f", .binary, [1]⟩)] }

/-- Counterexample for C1 as stated: with two artifacts sharing a filename
the save succeeds but the loaded run is not the saved one — both artifact
entries come back with the bytes of the last one written. -/
theorem c1_counterexample :
    (save_run_to_path [] c1Run "p" false).2 = none
    ∧ load_run_from_path (save_run_to_path [] c1Run "p" false).1 "p" ≠ .ok c1Run := by
  constructor
  · rfl
  · decide

/-- C1 (amended): the save/load round trip restores the run exactly —
identity, timestamp, params, metrics, dicts and artifacts with their ids,
filenames, types and bytes — provided the artifact filenames are pairwise
distinct and run-relative (the data model's filename-uniqueness caveat);
with a duplicate filename both artifacts come back with the last written
bytes, refuting the unrestricted claim. -/
theorem c1_round_trip (fs : FS) (er : ExperimentRun) (path : String) (ov : Bool)
    (hnd : (er.artifacts.map (fun ka => ka.2.filename)).Nodup)
    (hrel : ∀ ka ∈ er.artifacts, startsSlash ka.2.filename = false)
    (hok : (save_run_to_path fs er path ov).2 = none) :
    load_run_from_path (save_run_to_path fs er path ov).1 path = .ok er := by
  unfold save_run_to_path at hok ⊢
  by_cases hcond : (fsExistsB fs (pjoin path "erm_metadata.json") && !ov) = true
  · rw [if_pos hcond] at hok
    simp at hok
  · rw [if_neg hcond] at hok ⊢
    simp only []
    have hmread :
        fsRead?
          (er.artifacts.foldl
            (fun acc ka =>
              fsWrite acc (pjoin (pjoin path "artifacts") ka.2.filename)
                (.blob ka.2.bytes))
            (fsWrite fs (pjoin path "erm_metadata.json")
              (.meta (metadataOfRun er))))
          (pjoin path "erm_metadata.json") = some (.meta (metadataOfRun er)) := by
      rw [fsRead?_artifact_writes_ne _ _ _ _
        (fun ka hka => Ne.symm (mpath_ne_apath path ka.2.filename (hrel ka hka)))]
      exact fsRead?_write_self _ _ _
    unfold load_run_from_path
    rw [hmread]
    have hreads : ∀ ka ∈ er.artifacts,
        fsRead?
          (er.artifacts.foldl
            (fun acc ka =>
              fsWrite acc (pjoin (pjoin path "artifacts") ka.2.filename)
                (.blob ka.2.bytes))
            (fsWrite fs (pjoin path "erm_metadata.json")
              (.meta (metadataOfRun er))))
          (pjoin (pjoin path "artifacts") ka.2.filename)
          = some (.blob ka.2.bytes) :=
      fun ka hka =>
        fsRead?_artifact_writes_mem (pjoin path "artifacts") er.artifacts _
          (nodup_apaths _ _ hnd hrel (adir_ne_empty path) (adir_not_endsSlash path))
          ka hka
    have hload := loadArtifacts_roundtrip _ (pjoin path "artifacts") er.artifacts hreads
    simp only [metadataOfRun] at hload
    simp only [metadataOfRun]
    rw [hload]
    rfl

/-- The C1 witness run: two artifacts with distinct relative filenames. -/
def c1GoodRun : ExperimentRun :=
  { experiment_id := "e", variant_id := "main", run_id := "r", timestamp_utc := 0,
    params := [("p", Value.s "v")], metrics := [("m", Value.i 2)],
    dicts := [("d", [("k", Value.i 3)])],
    artifacts := [("a1", ⟨"a1", "f1", .binary, [0]⟩),
      ("a2", ⟨"a2", "f2", .png, [1, 2]⟩)] }

/-- Evaluation witness for C1's amended statement at a concrete run. -/
theorem c1_round_trip_witness :
    (c1GoodRun.artifacts.map (fun ka => ka.2.filename)).Nodup
    ∧ (∀ ka ∈ c1GoodRun.artifacts, startsSlash ka.2.filename = false)
    ∧ (save_run_to_path [] c1GoodRun "p" false).2 = none
    ∧ load_run_from_path (save_run_to_path [] c1GoodRun "p" false).1 "p"
        = .ok c1GoodRun :=
  ⟨by decide, by decide, by decide,
    c1_round_trip [] c1GoodRun "p" false (by decide) (by decide) (by decide)⟩

/-- C7: when the variant lists at least one run, resolving an omitted
`run_id` yields a listed run id that is the lexicographic maximum of the
listed ids (ascending sort, last element), and `load_run_from_registry`
delegates to `load_run_from_path` at exactly that run's joined path. -/
theorem c7_latest_run (fs : FS) (root e v : String)
    (h : list_runs fs root e v ≠ []) :
    ∃ rid, get_latest_run_for_variant fs root e v = .ok rid
      ∧ rid ∈ list_runs fs root e v
      ∧ (∀ x ∈ list_runs fs root e v, strLe x rid = true)
      ∧ load_run_from_registry fs root e v none
          = load_run_from_path fs (registryRunPath root e v rid) := by
  have hsne : sortStrings (list_runs fs root e v) ≠ [] := sortStrings_ne_nil _ h
  have hlat : get_latest_run_for_variant fs root e v
      = .ok ((sortStrings (list_runs fs root e v)).getLast hsne) := by
    show (match (sortStrings (list_runs fs root e v)).getLast? with
      | some r => Except.ok r
      | none => Except.error PyErr.indexError)
      = Except.ok ((sortStrings (list_runs fs root e v)).getLast hsne)
    rw [List.getLast?_eq_getLast _ hsne]
  refine ⟨(sortStrings (list_runs fs root e v)).getLast hsne, hlat, ?_, ?_, ?_⟩
  · exact (mem_sortStrings _ _).mp (List.getLast_mem hsne)
  · intro x hx
    exact pairwise_le_getLast _ hsne (pairwise_sortStrings _) x
      ((mem_sortStrings x _).mpr hx)
  · unfold load_run_from_registry
    rw [hlat]

/-- The earlier of the two runs stored in the C7 witness registry. -/
def c7run1 : ExperimentRun :=
  { experiment_id := "exp", variant_id := "var", run_id := "2024_01_01__00_00_00",
    timestamp_utc := 10, params := [], metrics := [], dicts := [], artifacts := [] }

/-- The later of the two runs stored in the C7 witness registry. -/
def c7run2 : ExperimentRun :=
  { experiment_id := "exp", variant_id := "var", run_id := "2024_06_01__00_00_00",
    timestamp_utc := 20, params := [], metrics := [], dicts := [], artifacts := [] }

/-- A registry holding the two C7 witness runs under one variant. -/
def c7fs : FS :=
  [("reg/exp/var/2024_01_01__00_00_00/erm_metadata.json",
      FileData.meta (metadataOfRun c7run1)),
    ("reg/exp/var/2024_06_01__00_00_00/erm_metadata.json",
      FileData.meta (metadataOfRun c7run2))]

/-- Evaluation witness for C7 at a concrete two-run registry. -/
theorem c7_latest_run_witness :
    list_runs c7fs "reg" "exp" "var" ≠ []
    ∧ (∃ rid, get_latest_run_for_variant c7fs "reg" "exp" "var" = .ok rid
      ∧ rid ∈ list_runs c7fs "reg" "exp" "var"
      ∧ (∀ x ∈ list_runs c7fs "reg" "exp" "var", strLe x rid = true)
      ∧ load_run_from_registry c7fs "reg" "exp" "var" none
          = load_run_from_path c7fs (registryRunPath "reg" "exp" "var" rid)) :=
  ⟨by decide, c7_latest_run c7fs "reg" "exp" "var" (by decide)⟩
